import Mathlib

/-!
# Verification of syncManager.py

A shallow embedding of `src/syncManager.py` (version 3.1.1), a backup / restore /
show script for a service's filesystem paths and MariaDB databases against S3
buckets, together with theorems settling the specified properties.

The script is straight-line code driven by `os.system` / `os.popen` calls whose
externally visible actions we record as an `Effect` trace.  Return codes of the
external tools are part of the run's input (the `dumpOut` / `compressOut`
fields); the source never inspects them, and the embedding reflects that
faithfully.  Python-level exceptions (`datetime.strptime` raising `ValueError`
on a malformed key, list indexing out of range) are modelled by the `crashed`
flag: a crashed run terminates immediately with exit status 1 (CPython exits
with status 1 on an uncaught exception) and executes nothing further.

Python truthiness of strings (`if dbpassword:`, `any(dbList)`) is modelled by
non-emptiness; `str.split(sep)` for a one-character separator is modelled by
`splitOnChar`; `str.endswith` by `strEndsWith`.
-/

/-- Model of Python `str.split` with a one-character separator, on the
character list of the string.  `"".split(c) == ['']`. -/
def splitChar (c : Char) : List Char → List String
  | [] => [""]
  | a :: as =>
    let r := splitChar c as
    if a = c then "" :: r
    else String.mk (a :: (r.headD "").toList) :: r.tail

/-- `s.split(c)` for a one-character separator `c` (Python semantics). -/
def splitOnChar (s : String) (c : Char) : List String := splitChar c s.data

/-- Model of Python `str.endswith`. -/
def strEndsWith (s suffix : String) : Bool := suffix.data.isSuffixOf s.data

/-- Model of Python `any(listOfStrings)`: true iff some element is truthy
(non-empty). -/
def anyTruthy (l : List String) : Bool := l.any (fun x => x != "")

/-- Numeric value of a decimal digit character. -/
def digitVal (c : Char) : Nat := c.toNat - 48

/-- Gregorian leap-year test, as used by Python's `datetime`. -/
def isLeap (y : Nat) : Bool := y % 4 == 0 && (y % 100 != 0 || y % 400 == 0)

/-- Number of days in month `m` of year `y`. -/
def daysInMonth (y m : Nat) : Nat :=
  if m = 2 then (if isLeap y then 29 else 28)
  else if m = 4 ∨ m = 6 ∨ m = 9 ∨ m = 11 then 30
  else 31

/-- Days in all years before year `y` (proleptic Gregorian, year 1 is first). -/
def daysBeforeYear (y : Nat) : Nat :=
  (y - 1) * 365 + (y - 1) / 4 - (y - 1) / 100 + (y - 1) / 400

/-- Days in year `y` before the first day of month `m`. -/
def daysBeforeMonth (y m : Nat) : Nat :=
  (List.range (m - 1)).foldl (fun acc i => acc + daysInMonth y (i + 1)) 0

/-- Model of `datetime.strptime(s, '%Y%m%d-%H%M%S')` followed by
`datetime.timestamp`: seconds since a fixed origin (start of year 1).  The
script only ever uses *differences* of two such timestamps, so the choice of
origin is irrelevant.  `none` models the `ValueError` that `strptime` raises on
input that does not match the format or does not denote a valid date. -/
def strptimeTS (s : String) : Option Int :=
  match s.data with
  | [y1, y2, y3, y4, mo1, mo2, d1, d2, dash, h1, h2, n1, n2, e1, e2] =>
    if dash == '-' &&
        [y1, y2, y3, y4, mo1, mo2, d1, d2, h1, h2, n1, n2, e1, e2].all Char.isDigit then
      let y := ((digitVal y1 * 10 + digitVal y2) * 10 + digitVal y3) * 10 + digitVal y4
      let mo := digitVal mo1 * 10 + digitVal mo2
      let d := digitVal d1 * 10 + digitVal d2
      let h := digitVal h1 * 10 + digitVal h2
      let mi := digitVal n1 * 10 + digitVal n2
      let se := digitVal e1 * 10 + digitVal e2
      if 1 ≤ y ∧ 1 ≤ mo ∧ mo ≤ 12 ∧ 1 ≤ d ∧ d ≤ daysInMonth y mo ∧
          h ≤ 23 ∧ mi ≤ 59 ∧ se ≤ 59 then
        some (((daysBeforeYear y + daysBeforeMonth y mo + (d - 1)) * 86400
          + h * 3600 + mi * 60 + se : Nat) : Int)
      else none
    else none
  | _ => none

/-- The timestamp extracted from a listed S3 key, exactly as the cleanup loop
computes it (line 199: `folderDate = (folder.split('/'))[3]`, line 200:
`strptime`).  `none` covers both the `IndexError` (fewer than 4 components) and
the `ValueError` (malformed timestamp), each of which is an uncaught exception
in the source. -/
def tsOf (folder : String) : Option Int :=
  match (splitOnChar folder '/').get? 3 with
  | none => none
  | some s => strptimeTS s

/-- The full key of the `latest/` alias of a bucket, as built on line 198. -/
def latestKey (servicename priority : String) : String :=
  "s3://" ++ servicename ++ "-backup-" ++ priority ++ "/latest/"

/-- The externally visible actions of one run, in the order the script issues
them.  Dump and compress effects record the exit code the external tool
reported (which the source receives from `os.system` and discards). -/
inductive Effect
  | mkdirWorking
  | mkdirDump
  | dump (db : String) (outcome : Int)
  | copyPath (path : String)
  | compress (outcome : Int)
  | s3put (priority region : String)
  | s3delLatest (priority region : String)
  | s3cpLatest (priority region : String)
  | s3delFolder (folder : String)
  | s3download
  | untar
  | rmContents (path : String)
  | mvRestored (path : String)
  | chownRec (owner group path : String)
  | dropDb (db : String)
  | createDb (db : String)
  | loadDump (db : String)
  | execExtra (cmd : String)
  | rmrfWorking
  deriving DecidableEq, Repr

/-- The retention-cleanup loop of one region (lines 197-203): for every listed
key other than the `latest/` alias, split out the identifier component, parse
it as a timestamp (a failure of either is an uncaught exception: the returned
flag is `true` and the loop stops), and delete the key when it is older than
the retention window. -/
def cleanupRegion (servicename priority : String) (currentTS : Int)
    (retentionDays : Nat) : List String → List Effect × Bool
  | [] => ([], false)
  | folder :: rest =>
    if folder = latestKey servicename priority then
      cleanupRegion servicename priority currentTS retentionDays rest
    else
      match tsOf folder with
      | none => ([], true)
      | some ts =>
        if currentTS - ts > (retentionDays : Int) * 24 * 60 * 60 then
          let r := cleanupRegion servicename priority currentTS retentionDays rest
          (Effect.s3delFolder folder :: r.1, r.2)
        else
          cleanupRegion servicename priority currentTS retentionDays rest

/-- The per-region upload loop of backup mode (lines 189-204): for each
`(priority, region)` pair in order, put the archive, delete the `latest/`
alias, re-copy into `latest/`, then run the retention cleanup for that region.
`listing` gives the `s3cmd ls` output (one key per line) per priority.  A crash
inside a region's cleanup stops the whole loop. -/
def uploadRegions (servicename : String) (listing : String → List String)
    (currentTS : Int) (retentionDays : Nat) :
    List (String × String) → List Effect × Bool
  | [] => ([], false)
  | (priority, region) :: rest =>
    let pre := [Effect.s3put priority region, Effect.s3delLatest priority region,
      Effect.s3cpLatest priority region]
    let c := cleanupRegion servicename priority currentTS retentionDays (listing priority)
    if c.2 then (pre ++ c.1, true)
    else
      let r := uploadRegions servicename listing currentTS retentionDays rest
      (pre ++ c.1 ++ r.1, r.2)

/-- The fixed exclusion set of system schemas (line 87). -/
def excludedDbs : List String := ["mysql", "information_schema", "performance_schema", "sys"]

/-- Outcome of the backup-mode database-list resolution (lines 148-167). -/
inductive Resolve
  | proceed (dbs : List String)
  | exitErr
  deriving DecidableEq, Repr

/-- Backup-mode database-list resolution (lines 148-167).  With a truthy
configured list, keep it.  Otherwise, with no password, continue files-only
with the configured (non-truthy) list; with a password, take the `show
databases` output minus the exclusion set and minus empty lines, and exit with
status 1 only when that search produced nothing usable *and* the path list is
also empty. -/
def resolveDbList (dbList : List String) (dbpassword : String)
    (searchOutput : List String) (pathsList : List String) : Resolve :=
  if anyTruthy dbList then Resolve.proceed dbList
  else if dbpassword = "" then Resolve.proceed dbList
  else
    let clean := searchOutput.filter (fun d => !(excludedDbs.contains d) && d != "")
    if anyTruthy clean then Resolve.proceed clean
    else if anyTruthy pathsList then Resolve.proceed clean
    else Resolve.exitErr

/-- `args.env == "dev" or args.env == "prod"` (lines 168, 220, 278). -/
def envOk (env : String) : Bool := env == "dev" || env == "prod"

/-- All run-relevant configuration, arguments and collaborator responses of one
invocation of the script. -/
structure RunInput where
  argsBackup : Bool
  argsRestore : Bool
  argsShow : Bool
  env : String
  date : String
  servicename : String
  s3AccessKey : String
  s3SecretKey : String
  pathsList : List String
  dbList : List String
  dbadmin : String
  dbpassword : String
  dbhost : String
  retentionDays : Nat
  regionPrimary : String
  regionSecondary : String
  workingDirExists : Bool
  dumpDirExists : Bool
  searchOutput : List String
  backupListing : String → List String
  restoreListing : List String
  walkFiles : List String
  ownerOf : String → String
  groupOf : String → String
  extra : String
  currentTS : Int
  dumpOut : String → Int
  compressOut : Int

/-- The region map (lines 71-81): dev uses a single `primary-dev` region,
everything else uses `primary` and `secondary`. -/
def regionS3 (inp : RunInput) : List (String × String) :=
  if inp.env = "dev" then [("primary-dev", inp.regionPrimary)]
  else [("primary", inp.regionPrimary), ("secondary", inp.regionSecondary)]

/-- `checkBaseFolder` (lines 131-137): create the working directory and the
timestamped dump directory when they do not exist yet. -/
def checkBaseFolderEffects (inp : RunInput) : List Effect :=
  (if inp.workingDirExists then [] else [Effect.mkdirWorking]) ++
  (if inp.dumpDirExists then [] else [Effect.mkdirDump])

/-- What one run did: its effect trace, its process exit status, and whether it
terminated by an uncaught exception (in which case the status is CPython's 1
and nothing after the exception ran). -/
structure RunResult where
  effects : List Effect
  status : Nat
  crashed : Bool
  deriving DecidableEq, Repr

/-- Backup mode (lines 144-206 plus the shared final cleanup, lines 295-297):
resolve the database list (possibly exiting with status 1), then for a valid
env create the workspace, dump each database (only when a password is
configured, line 172), copy each path when the path list is truthy, compress,
and upload / prune per region; finally remove the working directory — unless a
crash in the pruning loop already killed the process. -/
def backupRun (inp : RunInput) : RunResult :=
  match resolveDbList inp.dbList inp.dbpassword inp.searchOutput inp.pathsList with
  | Resolve.exitErr => ⟨[], 1, false⟩
  | Resolve.proceed dbs =>
    if envOk inp.env then
      let dumps := if inp.dbpassword ≠ "" then
        dbs.map (fun db => Effect.dump db (inp.dumpOut db)) else []
      let copies := if anyTruthy inp.pathsList then inp.pathsList.map Effect.copyPath else []
      let up := uploadRegions inp.servicename inp.backupListing inp.currentTS
        inp.retentionDays (regionS3 inp)
      let es := checkBaseFolderEffects inp ++ dumps ++ copies ++
        [Effect.compress inp.compressOut] ++ up.1
      if up.2 then ⟨es, 1, true⟩
      else ⟨es ++ [Effect.rmrfWorking], 0, false⟩
    else ⟨[Effect.rmrfWorking], 0, false⟩

/-- The per-path restore body (lines 231-245): behind the guard
`len(path + "/*") > 2`, delete the path's contents, move the unpacked subtree
in, and chown recursively to the owner and group that were read from the path
*before* the deletion (`ownerOf` / `groupOf` give the pre-run filesystem
state). -/
def restorePathEffects (inp : RunInput) (path : String) : List Effect :=
  if (path ++ "/*").length > 2 then
    [Effect.rmContents path, Effect.mvRestored path,
      Effect.chownRec (inp.ownerOf path) (inp.groupOf path) path]
  else []

/-- Restore-mode database-list derivation (lines 248-254): when the configured
list is not truthy, replace it by the first dot-component of every file name
ending in `.sql` found while walking the unpacked bundle
(`filename.split(".")[0]`). -/
def deriveDbList (dbList walkFiles : List String) : List String :=
  if anyTruthy dbList then dbList
  else (walkFiles.filter (fun f => strEndsWith f ".sql")).map
    (fun f => (splitOnChar f '.').headD "")

/-- Restore mode (lines 213-270 plus the shared final cleanup): when the
listing for the requested date is empty, print a message and `exit()` — which
is exit status 0 and nothing else; otherwise, for a valid env, create the
workspace, download and unpack the archive, process each path behind the
guard, resolve the database list from the bundle when none is configured, then
drop / create / load each database, run the optional extra script, and remove
the working directory. -/
def restoreRun (inp : RunInput) : RunResult :=
  if inp.restoreListing = [] then ⟨[], 0, false⟩
  else if envOk inp.env then
    let pathEs := if anyTruthy inp.pathsList then
      (inp.pathsList.map (restorePathEffects inp)).flatten else []
    let dbs := deriveDbList inp.dbList inp.walkFiles
    let dbEs := if anyTruthy dbs then
      (dbs.map (fun db => [Effect.dropDb db, Effect.createDb db, Effect.loadDump db])).flatten
      else []
    let extraEs := if inp.extra ≠ "" then [Effect.execExtra inp.extra] else []
    ⟨checkBaseFolderEffects inp ++ [Effect.s3download, Effect.untar] ++ pathEs ++
      dbEs ++ extraEs ++ [Effect.rmrfWorking], 0, false⟩
  else ⟨[Effect.rmrfWorking], 0, false⟩

/-- Show mode (lines 277-293): a pure read of the bucket listing followed by
`exit()` on both branches — no modelled effect, exit status 0, and the shared
final cleanup is *not* reached. -/
def showRun (_inp : RunInput) : RunResult := ⟨[], 0, false⟩

/-- One whole invocation: the `testVars` pre-flight check (lines 110-128, exit
status 1 when a mandatory setting is empty), then the `if args.backup / elif
args.restore / elif args.show` dispatch (lines 144, 213, 277); with no mode
flag at all, execution falls through to the final cleanup (lines 295-297). -/
def runScript (inp : RunInput) : RunResult :=
  if inp.servicename = "" ∨ inp.s3AccessKey = "" ∨ inp.s3SecretKey = "" then ⟨[], 1, false⟩
  else if inp.argsBackup then backupRun inp
  else if inp.argsRestore then restoreRun inp
  else if inp.argsShow then showRun inp
  else ⟨[Effect.rmrfWorking], 0, false⟩

/-- The mode the `if/elif` dispatch selects. -/
inductive Mode
  | backup
  | restore
  | showCatalog
  deriving DecidableEq, Repr

/-- The list of mode bodies one invocation executes, from the dispatch
structure of lines 144, 213 and 277. -/
def modesRun (b r s : Bool) : List Mode :=
  if b then [Mode.backup] else if r then [Mode.restore]
  else if s then [Mode.showCatalog] else []

/-- The primitive steps of the per-path restore body, lines 233-244. -/
inductive FsOp
  | captureOwner
  | rmContents
  | mvInto (archOwn : String × String)
  | chownRec
  deriving DecidableEq, Repr

/-- Ownership-relevant state of one configured path while it is being
restored: the owner/group pair the script has recorded in its `owner` /
`group` variables (if any yet), the ownership of the path directory itself,
and the ownership of the path's content subtree (`none` once removed). -/
structure PathState where
  reg : Option (String × String)
  pathOwn : String × String
  contentOwn : Option (String × String)
  deriving DecidableEq, Repr

/-- Semantics of the restore steps.  `captureOwner` reads the path's current
owner and group (`Path(path).owner()` / `.group()`); `rmContents` is
`rm -rf path/*`; `mvInto a` moves the unpacked subtree (owned by `a`, the
ownership the unarchiving produced) into the path; `chownRec` is
`chown -R owner:group path` with the recorded variables. -/
def applyOp : PathState → FsOp → PathState
  | s, FsOp.captureOwner => { s with reg := some s.pathOwn }
  | s, FsOp.rmContents => { s with contentOwn := none }
  | s, FsOp.mvInto a => { s with contentOwn := some a }
  | s, FsOp.chownRec =>
    match s.reg with
    | some og => { s with pathOwn := og, contentOwn := s.contentOwn.map (fun _ => og) }
    | none => s

/-- The restore steps for one path in source order (lines 233-244: capture
owner and group, delete the contents, move the unpacked subtree in, chown
recursively). -/
def restorePathOps (archOwn : String × String) : List FsOp :=
  [FsOp.captureOwner, FsOp.rmContents, FsOp.mvInto archOwn, FsOp.chownRec]

/-- Run a list of restore steps on a path state. -/
def runOps (s : PathState) (ops : List FsOp) : PathState := ops.foldl applyOp s

/-- A concrete backup invocation (prod env, one configured database, no paths)
whose database dump reports exit code 1 and whose compression reports exit
code 2. -/
def inpFailedDump : RunInput where
  argsBackup := true
  argsRestore := false
  argsShow := false
  env := "prod"
  date := "latest"
  servicename := "svc"
  s3AccessKey := "ak"
  s3SecretKey := "sk"
  pathsList := []
  dbList := ["db1"]
  dbadmin := "root"
  dbpassword := "pw"
  dbhost := "dbh"
  retentionDays := 30
  regionPrimary := "ep"
  regionSecondary := "es"
  workingDirExists := false
  dumpDirExists := false
  searchOutput := []
  backupListing := fun _ => []
  restoreListing := []
  walkFiles := []
  ownerOf := fun _ => "u"
  groupOf := fun _ => "g"
  extra := ""
  currentTS := 0
  dumpOut := fun _ => 1
  compressOut := 2

/-- A concrete restore invocation whose configured path list holds the
filesystem root `"/"` and the empty string. -/
def inpRootPath : RunInput :=
  { inpFailedDump with
    argsBackup := false
    argsRestore := true
    restoreListing := ["s3://svc-backup-primary/latest/backup.tar.gz"]
    pathsList := ["/", ""]
    dumpOut := fun _ => 0
    compressOut := 0 }

/-- A concrete restore invocation for which the remote listing of the
requested date is empty. -/
def inpMissingDate : RunInput :=
  { inpFailedDump with
    argsBackup := false
    argsRestore := true
    date := "20200101-000000"
    restoreListing := []
    dumpOut := fun _ => 0
    compressOut := 0 }

/-- A concrete backup invocation whose primary-region listing holds a key that
does not parse as a snapshot timestamp. -/
def inpBadKey : RunInput :=
  { inpFailedDump with
    backupListing := fun _ => ["s3://svc-backup-primary/garbage/"]
    dumpOut := fun _ => 0
    compressOut := 0 }

/-- A concrete backup invocation that completes normally (empty region
listings, nothing to prune). -/
def inpCleanBackup : RunInput :=
  { inpFailedDump with
    dumpOut := fun _ => 0
    compressOut := 0 }

/-- A concrete backup invocation with an empty database list, no database
credentials and an empty path list (the configuration values `""` split into
`[""]`, which is not truthy). -/
def inpNothingToDo : RunInput :=
  { inpFailedDump with
    dbList := [""]
    dbpassword := ""
    pathsList := [""]
    dumpOut := fun _ => 0
    compressOut := 0 }

/-- A concrete region listing: the `latest/` alias, a snapshot 31 days older
than the reference time `31 * 86400`, and a snapshot 5 days older than it. -/
def retListing : List String :=
  ["s3://svc-backup-primary/latest/",
   "s3://svc-backup-primary/00010101-000000/",
   "s3://svc-backup-primary/00010127-000000/"]

/-- C10: For every invocation, at most one of the backup, restore, and show
modes executes: when more than one of the mode flags is supplied, only the
first in the fixed precedence order backup, then restore, then show runs, and
the others are ignored. -/
theorem c10_mode_dispatch (b r s : Bool) :
    (modesRun b r s).length ≤ 1 ∧
    (b = true → modesRun b r s = [Mode.backup]) ∧
    (b = false → r = true → modesRun b r s = [Mode.restore]) ∧
    (b = false → r = false → s = true → modesRun b r s = [Mode.showCatalog]) := by
  cases b <;> cases r <;> cases s <;> simp [modesRun]

theorem c10_mode_dispatch_witness :
    (modesRun true true true).length ≤ 1 ∧ modesRun true true true = [Mode.backup] :=
  ⟨(c10_mode_dispatch true true true).1, (c10_mode_dispatch true true true).2.1 rfl⟩

/-- C7: In restore mode, for every restored path, the owner and group recorded
from the path before its contents are removed are the ones reapplied
recursively after the unpacked subtree is moved into place: running the
source-ordered step sequence (capture, remove, move, chown) from any path
state leaves the path owned by its prior owner/group, and the moved-in
contents chowned to that same prior owner/group, whatever ownership the
unpacked archive content carried. -/
theorem c7_ownership_preserved (s : PathState) (archOwn : String × String) :
    (runOps s (restorePathOps archOwn)).pathOwn = s.pathOwn ∧
    (runOps s (restorePathOps archOwn)).contentOwn = some s.pathOwn := by
  constructor <;> rfl

/-- C2 (evaluation at the failing input): the guard `len(path + "/*") > 2`
stops the empty path, but lets the filesystem root `"/"` through — the
concrete restore run `inpRootPath`, configured with paths `["/", ""]`, issues
`rm -rf //*` on the root while never issuing a remove for `""`. -/
theorem c2_root_guard_fails :
    Effect.rmContents "/" ∈ (runScript inpRootPath).effects ∧
    Effect.rmContents "" ∉ (runScript inpRootPath).effects := by decide

/-- C3 (evaluation at the failing input): a restore whose requested date has
an empty remote listing terminates with exit status 0 (bare `exit()`), not a
non-zero status; it does perform no side effects and creates no working
directory. -/
theorem c3_missing_date_exit_status :
    runScript inpMissingDate = ⟨[], 0, false⟩ := by decide

/-- C1 is false as stated: in the concrete backup run `inpFailedDump`, the
dump of `db1` reports exit code 1 and compression reports exit code 2, yet
the archive is still uploaded to both regions and the run terminates with
status 0. -/
theorem c1_counterexample :
    Effect.dump "db1" 1 ∈ (runScript inpFailedDump).effects ∧
    Effect.compress 2 ∈ (runScript inpFailedDump).effects ∧
    Effect.s3put "primary" "ep" ∈ (runScript inpFailedDump).effects ∧
    Effect.s3put "secondary" "es" ∈ (runScript inpFailedDump).effects ∧
    (runScript inpFailedDump).status = 0 := by decide

/-- C4 is false as stated: in the concrete backup run `inpBadKey`, the
timestamped working directory is created, the primary region's listing holds
a key that fails to parse, the resulting uncaught exception kills the
process, and the working directory is never removed. -/
theorem c4_counterexample :
    Effect.mkdirDump ∈ (runScript inpBadKey).effects ∧
    (runScript inpBadKey).crashed = true ∧
    Effect.rmrfWorking ∉ (runScript inpBadKey).effects := by decide

/-- C6 is false as stated: with the concrete listing holding the malformed key
`garbage` followed by a snapshot key old enough to be eligible for deletion,
the cleanup loop crashes on the malformed key and the eligible key is never
deleted — a failure on one key aborts pruning of the remaining keys. -/
theorem c6_counterexample :
    (cleanupRegion "svc" "primary" (31 * 86400) 30
      ["s3://svc-backup-primary/garbage/", "s3://svc-backup-primary/00010101-000000/"]).2
        = true ∧
    Effect.s3delFolder "s3://svc-backup-primary/00010101-000000/" ∉
      (cleanupRegion "svc" "primary" (31 * 86400) 30
        ["s3://svc-backup-primary/garbage/", "s3://svc-backup-primary/00010101-000000/"]).1 := by
  decide

/-- C8 is false as stated: in the concrete backup run `inpNothingToDo` (empty
database list, no credentials, empty path list), the run does not fail fast:
it compresses the empty workspace, publishes it to both regions and exits
with status 0. -/
theorem c8_counterexample :
    (runScript inpNothingToDo).status = 0 ∧
    Effect.compress 0 ∈ (runScript inpNothingToDo).effects ∧
    Effect.s3put "primary" "ep" ∈ (runScript inpNothingToDo).effects := by decide

theorem cleanupRegion_no_crash (svc pr : String) (now : Int) (ret : Nat)
    (fl : List String)
    (hp : ∀ f ∈ fl, f ≠ latestKey svc pr → (tsOf f).isSome = true) :
    (cleanupRegion svc pr now ret fl).2 = false := by
  induction fl with
  | nil => rfl
  | cons hd tl ih =>
    have htl : ∀ f ∈ tl, f ≠ latestKey svc pr → (tsOf f).isSome = true :=
      fun f hf => hp f (List.mem_cons_of_mem _ hf)
    by_cases hhd : hd = latestKey svc pr
    · simpa [cleanupRegion, hhd] using ih htl
    · obtain ⟨ts, hts⟩ := Option.isSome_iff_exists.mp (hp hd (List.mem_cons_self _ _) hhd)
      by_cases hage : now - ts > (ret : Int) * 24 * 60 * 60
      · simpa [cleanupRegion, hhd, hts, hage] using ih htl
      · simpa [cleanupRegion, hhd, hts, hage] using ih htl

theorem cleanupRegion_mem (svc pr : String) (now : Int) (ret : Nat)
    (fl : List String)
    (hp : ∀ f ∈ fl, f ≠ latestKey svc pr → (tsOf f).isSome = true) (f : String) :
    Effect.s3delFolder f ∈ (cleanupRegion svc pr now ret fl).1 ↔
      f ∈ fl ∧ f ≠ latestKey svc pr ∧
        ∃ ts, tsOf f = some ts ∧ now - ts > (ret : Int) * 24 * 60 * 60 := by
  induction fl with
  | nil => simp [cleanupRegion]
  | cons hd tl ih =>
    have htl : ∀ g ∈ tl, g ≠ latestKey svc pr → (tsOf g).isSome = true :=
      fun g hg => hp g (List.mem_cons_of_mem _ hg)
    have ih2 := ih htl
    by_cases hhd : hd = latestKey svc pr
    · have he : cleanupRegion svc pr now ret (hd :: tl) =
          cleanupRegion svc pr now ret tl := by
        simp [cleanupRegion, hhd]
      rw [he, ih2]
      constructor
      · rintro ⟨h1, h2, h3⟩
        exact ⟨List.mem_cons_of_mem _ h1, h2, h3⟩
      · rintro ⟨h1, h2, h3⟩
        rcases List.mem_cons.mp h1 with h | h
        · exact absurd (h.trans hhd) h2
        · exact ⟨h, h2, h3⟩
    · obtain ⟨ts, hts⟩ := Option.isSome_iff_exists.mp (hp hd (List.mem_cons_self _ _) hhd)
      by_cases hage : now - ts > (ret : Int) * 24 * 60 * 60
      · have he : cleanupRegion svc pr now ret (hd :: tl) =
            (Effect.s3delFolder hd :: (cleanupRegion svc pr now ret tl).1,
              (cleanupRegion svc pr now ret tl).2) := by
          simp [cleanupRegion, hhd, hts, hage]
        rw [he]
        constructor
        · intro h
          rcases List.mem_cons.mp h with h | h
          · injection h with h2
            subst h2
            exact ⟨List.mem_cons_self _ _, hhd, ts, hts, hage⟩
          · obtain ⟨h1, h2, h3⟩ := ih2.mp h
            exact ⟨List.mem_cons_of_mem _ h1, h2, h3⟩
        · rintro ⟨h1, h2, h3⟩
          rcases List.mem_cons.mp h1 with h | h
          · subst h
            exact List.mem_cons_self _ _
          · exact List.mem_cons_of_mem _ (ih2.mpr ⟨h, h2, h3⟩)
      · have he : cleanupRegion svc pr now ret (hd :: tl) =
            cleanupRegion svc pr now ret tl := by
          simp [cleanupRegion, hhd, hts, hage]
        rw [he, ih2]
        constructor
        · rintro ⟨h1, h2, h3⟩
          exact ⟨List.mem_cons_of_mem _ h1, h2, h3⟩
        · rintro ⟨h1, h2, h3⟩
          rcases List.mem_cons.mp h1 with h | h
          · subst h
            obtain ⟨ts2, hts2, hage2⟩ := h3
            rw [hts] at hts2
            injection hts2 with e
            subst e
            exact absurd hage2 hage
          · exact ⟨h, h2, h3⟩

/-- C5: During retention pruning, for every region, when every listed
non-`latest` key parses as a snapshot timestamp, the cleanup loop does not
crash, never deletes the `latest/` alias regardless of age, and deletes
exactly those listed keys whose timestamp is strictly more than
`retentionDays` days (in seconds) older than the current run time. -/
theorem c5_retention_window (svc pr : String) (now : Int) (ret : Nat)
    (fl : List String)
    (hp : ∀ f ∈ fl, f ≠ latestKey svc pr → (tsOf f).isSome = true) :
    (cleanupRegion svc pr now ret fl).2 = false ∧
    Effect.s3delFolder (latestKey svc pr) ∉ (cleanupRegion svc pr now ret fl).1 ∧
    ∀ f, Effect.s3delFolder f ∈ (cleanupRegion svc pr now ret fl).1 ↔
      f ∈ fl ∧ f ≠ latestKey svc pr ∧
        ∃ ts, tsOf f = some ts ∧ now - ts > (ret : Int) * 24 * 60 * 60 := by
  refine ⟨cleanupRegion_no_crash svc pr now ret fl hp, ?_,
    fun f => cleanupRegion_mem svc pr now ret fl hp f⟩
  intro hm
  obtain ⟨_, h2, _⟩ := (cleanupRegion_mem svc pr now ret fl hp _).mp hm
  exact h2 rfl

theorem c5_retention_window_witness :
    (cleanupRegion "svc" "primary" (31 * 86400) 30 retListing).2 = false ∧
    Effect.s3delFolder "s3://svc-backup-primary/00010101-000000/" ∈
      (cleanupRegion "svc" "primary" (31 * 86400) 30 retListing).1 := by
  have h := c5_retention_window "svc" "primary" (31 * 86400) 30 retListing (by decide)
  exact ⟨h.1, (h.2.2 _).mpr ⟨by decide, by decide, 0, by decide, by decide⟩⟩

/-- C6 amended: during retention pruning, a listed key that fails to parse as
a snapshot timestamp is indeed never deleted (every deleted key has a parsing
timestamp), but it is not skipped: the parse failure is an uncaught exception,
so the presence of any malformed non-`latest` key makes the cleanup loop
crash, aborting pruning of the remaining keys and the whole run. -/
theorem c6_malformed_key_crash (svc pr : String) (now : Int) (ret : Nat)
    (fl : List String) :
    (∀ f, Effect.s3delFolder f ∈ (cleanupRegion svc pr now ret fl).1 →
      (tsOf f).isSome = true) ∧
    ((∃ f, f ∈ fl ∧ f ≠ latestKey svc pr ∧ tsOf f = none) →
      (cleanupRegion svc pr now ret fl).2 = true) := by
  induction fl with
  | nil => simp [cleanupRegion]
  | cons hd tl ih =>
    obtain ⟨ih1, ih2⟩ := ih
    by_cases hhd : hd = latestKey svc pr
    · have he : cleanupRegion svc pr now ret (hd :: tl) =
          cleanupRegion svc pr now ret tl := by
        simp [cleanupRegion, hhd]
      rw [he]
      refine ⟨ih1, ?_⟩
      rintro ⟨f, hf, hne, hnone⟩
      rcases List.mem_cons.mp hf with h | h
      · exact absurd (h.trans hhd) hne
      · exact ih2 ⟨f, h, hne, hnone⟩
    · cases hts : tsOf hd with
      | none =>
        have he : cleanupRegion svc pr now ret (hd :: tl) = ([], true) := by
          simp [cleanupRegion, hhd, hts]
        rw [he]
        exact ⟨by simp, fun _ => rfl⟩
      | some ts =>
        by_cases hage : now - ts > (ret : Int) * 24 * 60 * 60
        · have he : cleanupRegion svc pr now ret (hd :: tl) =
              (Effect.s3delFolder hd :: (cleanupRegion svc pr now ret tl).1,
                (cleanupRegion svc pr now ret tl).2) := by
            simp [cleanupRegion, hhd, hts, hage]
          rw [he]
          constructor
          · intro f hf
            rcases List.mem_cons.mp hf with h | h
            · injection h with h2
              subst h2
              simp [hts]
            · exact ih1 f h
          · rintro ⟨f, hf, hne, hnone⟩
            rcases List.mem_cons.mp hf with h | h
            · subst h
              rw [hts] at hnone
              cases hnone
            · exact ih2 ⟨f, h, hne, hnone⟩
        · have he : cleanupRegion svc pr now ret (hd :: tl) =
              cleanupRegion svc pr now ret tl := by
            simp [cleanupRegion, hhd, hts, hage]
          rw [he]
          refine ⟨ih1, ?_⟩
          rintro ⟨f, hf, hne, hnone⟩
          rcases List.mem_cons.mp hf with h | h
          · subst h
            rw [hts] at hnone
            cases hnone
          · exact ih2 ⟨f, h, hne, hnone⟩

theorem c6_malformed_key_crash_witness :
    (cleanupRegion "svc" "primary" 0 30 ["s3://svc-backup-primary/garbage/"]).2 = true :=
  (c6_malformed_key_crash "svc" "primary" 0 30 ["s3://svc-backup-primary/garbage/"]).2
    ⟨"s3://svc-backup-primary/garbage/", by decide, by decide, by decide⟩

theorem s3put_mem_uploadRegions (svc : String) (listing : String → List String)
    (now : Int) (ret : Nat) (pr rg : String) (rest : List (String × String)) :
    Effect.s3put pr rg ∈ (uploadRegions svc listing now ret ((pr, rg) :: rest)).1 := by
  unfold uploadRegions
  by_cases h : (cleanupRegion svc pr now ret (listing pr)).2 <;> simp [h]

/-- C1 amended: in backup mode, the outcomes reported by the database dumps
and by the compression are received and discarded, so the run never aborts on
them: whenever the pre-flight check passes, the database-list resolution
proceeds and the env is valid, the archive is uploaded to the first configured
region — with no hypothesis whatsoever on the dump or compression outcomes. -/
theorem c1_outcomes_ignored (inp : RunInput) (pr rg : String)
    (rest : List (String × String))
    (hvars : ¬(inp.servicename = "" ∨ inp.s3AccessKey = "" ∨ inp.s3SecretKey = ""))
    (hb : inp.argsBackup = true)
    (henv : envOk inp.env = true)
    (hres : resolveDbList inp.dbList inp.dbpassword inp.searchOutput inp.pathsList ≠
      Resolve.exitErr)
    (hreg : regionS3 inp = (pr, rg) :: rest) :
    Effect.s3put pr rg ∈ (runScript inp).effects := by
  have h1 : runScript inp = backupRun inp := by
    simp [runScript, hvars, hb]
  rw [h1]
  unfold backupRun
  cases hr : resolveDbList inp.dbList inp.dbpassword inp.searchOutput inp.pathsList with
  | exitErr => exact absurd hr hres
  | proceed dbs =>
    have hm := s3put_mem_uploadRegions inp.servicename inp.backupListing inp.currentTS
      inp.retentionDays pr rg rest
    simp only [henv, if_true, hreg]
    by_cases hup : (uploadRegions inp.servicename inp.backupListing inp.currentTS
        inp.retentionDays ((pr, rg) :: rest)).2 <;>
      simp [hup, List.mem_append, hm]

theorem c1_outcomes_ignored_witness :
    Effect.s3put "primary" "ep" ∈ (runScript inpFailedDump).effects :=
  c1_outcomes_ignored inpFailedDump "primary" "ep" [("secondary", "es")]
    (by decide) (by decide) (by decide) (by decide) (by decide)

theorem backupRun_teardown (inp : RunInput)
    (hcrash : (backupRun inp).crashed = false) :
    Effect.mkdirDump ∈ (backupRun inp).effects →
    Effect.rmrfWorking ∈ (backupRun inp).effects := by
  unfold backupRun at hcrash ⊢
  cases hr : resolveDbList inp.dbList inp.dbpassword inp.searchOutput inp.pathsList with
  | exitErr =>
    intro hmk
    simp at hmk
  | proceed dbs =>
    rw [hr] at hcrash
    dsimp only at hcrash ⊢
    by_cases henv : envOk inp.env = true
    · simp only [henv, if_true] at hcrash ⊢
      by_cases hup : (uploadRegions inp.servicename inp.backupListing inp.currentTS
          inp.retentionDays (regionS3 inp)).2
      · simp [hup] at hcrash
      · intro hmk
        simp [hup, List.mem_append]
    · intro hmk
      simp [henv]

theorem restoreRun_teardown (inp : RunInput) :
    Effect.mkdirDump ∈ (restoreRun inp).effects →
    Effect.rmrfWorking ∈ (restoreRun inp).effects := by
  unfold restoreRun
  by_cases hl : inp.restoreListing = []
  · intro hmk
    simp [hl] at hmk
  · by_cases henv : envOk inp.env = true
    · intro hmk
      simp [hl, henv, List.mem_append]
    · intro hmk
      simp [hl, henv]

/-- C4 amended: on every exit path that terminates without an uncaught
exception — every explicit exit and every fall-through, in every mode,
success or failure — any working directory created for the run is removed
before the process terminates; but a run killed by an uncaught exception
(such as the `ValueError` on a malformed key during retention pruning)
terminates without the teardown. -/
theorem c4_teardown_unless_crash (inp : RunInput)
    (hcrash : (runScript inp).crashed = false)
    (hmk : Effect.mkdirDump ∈ (runScript inp).effects) :
    Effect.rmrfWorking ∈ (runScript inp).effects := by
  unfold runScript at hcrash hmk ⊢
  by_cases h1 : inp.servicename = "" ∨ inp.s3AccessKey = "" ∨ inp.s3SecretKey = ""
  · simp [h1] at hmk
  · simp only [h1, if_false] at hcrash hmk ⊢
    by_cases hb : inp.argsBackup = true
    · simp only [hb, if_true] at hcrash hmk ⊢
      exact backupRun_teardown inp hcrash hmk
    · simp only [hb, if_false] at hcrash hmk ⊢
      by_cases hr : inp.argsRestore = true
      · simp only [hr, if_true] at hmk ⊢
        exact restoreRun_teardown inp hmk
      · simp only [hr, if_false] at hmk ⊢
        by_cases hs : inp.argsShow = true
        · simp [hs, showRun] at hmk
        · simp [hs]

theorem c4_teardown_unless_crash_witness :
    Effect.rmrfWorking ∈ (runScript inpCleanBackup).effects :=
  c4_teardown_unless_crash inpCleanBackup (by decide) (by decide)

/-- C8 amended: in backup mode with an empty configured database list, absent
database credentials and an empty configured path list, the run does not fail
fast: the database-list resolution proceeds in files-only mode and the run
goes on to compress (and then publish) the empty workspace. -/
theorem c8_no_fail_fast (inp : RunInput)
    (hvars : ¬(inp.servicename = "" ∨ inp.s3AccessKey = "" ∨ inp.s3SecretKey = ""))
    (hb : inp.argsBackup = true)
    (hdb : anyTruthy inp.dbList = false)
    (hpw : inp.dbpassword = "")
    (_hpaths : anyTruthy inp.pathsList = false)
    (henv : envOk inp.env = true) :
    resolveDbList inp.dbList inp.dbpassword inp.searchOutput inp.pathsList =
      Resolve.proceed inp.dbList ∧
    Effect.compress inp.compressOut ∈ (runScript inp).effects := by
  have hres : resolveDbList inp.dbList inp.dbpassword inp.searchOutput inp.pathsList =
      Resolve.proceed inp.dbList := by
    simp [resolveDbList, hdb, hpw]
  refine ⟨hres, ?_⟩
  have h1 : runScript inp = backupRun inp := by
    simp [runScript, hvars, hb]
  rw [h1]
  unfold backupRun
  rw [hres]
  simp only [henv, if_true]
  by_cases hup : (uploadRegions inp.servicename inp.backupListing inp.currentTS
      inp.retentionDays (regionS3 inp)).2 <;>
    simp [hup, List.mem_append]

theorem c8_no_fail_fast_witness :
    Effect.compress 0 ∈ (runScript inpNothingToDo).effects :=
  (c8_no_fail_fast inpNothingToDo (by decide) (by decide) (by decide) rfl
    (by decide) (by decide)).2

theorem splitChar_append_sep (c : Char) (l r : List Char) (h : c ∉ l) :
    splitChar c (l ++ c :: r) = String.mk l :: splitChar c r := by
  induction l with
  | nil => simp [splitChar]
  | cons a as ih =>
    have ha : ¬(a = c) := fun e => h (e ▸ List.mem_cons_self _ _)
    have ih2 := ih (fun hm => h (List.mem_cons_of_mem _ hm))
    simp only [List.cons_append, splitChar, List.append_eq]
    rw [ih2]
    simp [ha]

/-- C9: In restore mode, when the configured database list is not truthy, the
set of databases to restore is exactly the set of base names (the part before
the first dot, which for a dump file `<database>.sql` of a dot-free database
name is the name with the `.sql` extension stripped) of the `.sql` files
found while walking the unpacked bundle; a truthy configured list is kept
unchanged. -/
theorem c9_db_derivation (dbList walkFiles : List String)
    (hd : anyTruthy dbList = false) :
    (∀ d, d ∈ deriveDbList dbList walkFiles ↔
      ∃ f, f ∈ walkFiles ∧ strEndsWith f ".sql" = true ∧
        d = (splitOnChar f '.').headD "") ∧
    (∀ db : String, '.' ∉ db.data →
      (splitOnChar (db ++ ".sql") '.').headD "" = db) := by
  constructor
  · intro d
    simp only [deriveDbList, hd, Bool.false_eq_true, if_false, List.mem_map,
      List.mem_filter]
    constructor
    · rintro ⟨f, ⟨hf, he⟩, hb⟩
      exact ⟨f, hf, he, hb.symm⟩
    · rintro ⟨f, hf, he, hb⟩
      exact ⟨f, ⟨hf, he⟩, hb.symm⟩
  · intro db hdot
    have hdata : (db ++ ".sql").data = db.data ++ '.' :: ['s', 'q', 'l'] :=
      String.data_append db ".sql"
    rw [splitOnChar, hdata, splitChar_append_sep '.' db.data ['s', 'q', 'l'] hdot]
    rfl

theorem c9_db_derivation_witness :
    "wordpress" ∈ deriveDbList [""] ["wordpress.sql", "readme.txt"] ∧
    (splitOnChar ("wordpress" ++ ".sql") '.').headD "" = "wordpress" := by
  have h := c9_db_derivation [""] ["wordpress.sql", "readme.txt"] (by decide)
  exact ⟨(h.1 "wordpress").mpr ⟨"wordpress.sql", by decide, by decide, by decide⟩,
    h.2 "wordpress" (by decide)⟩
